import Mathlib

/-!
Shallow embedding of the admission-control and resilience middleware of the
performance-app-demo repository: the token-bucket limiter
(src/middleware/tokenBucket.ts), the sliding-log and fixed-window limiters
(src/middleware/mockSlidingWindow.ts), and the retry/timeout wrappers
(src/services/faultTolerance.ts).  Time is modelled as a rational number of
seconds (the source uses `Date.now() / 1000`); JS float arithmetic is embedded
as exact rational arithmetic.
-/

namespace PerfDemo

/-! ## Token bucket limiter — src/middleware/tokenBucket.ts -/

/-- Mirrors `interface Bucket { tokens: number; lastRefill: number }`. -/
structure Bucket where
  tokens : ℚ
  lastRefill : ℚ
deriving DecidableEq

/-- Source constant `const BUCKET_CAPACITY = 10` (max tokens). -/
def BUCKET_CAPACITY : ℚ := 10

/-- Source constant `const REFILL_RATE = 1` (tokens per second). -/
def REFILL_RATE : ℚ := 1

/-- Source constant `const REQUEST_COST = 1`. -/
def REQUEST_COST : ℚ := 1

/-- Observable outcome of one token-bucket admission check: whether `next()`
was called, and the `Retry-After` header (seconds) on a 429 denial. -/
structure TBResult where
  allowed : Bool
  retryAfterSeconds : Option ℕ
deriving DecidableEq

/-- The refill step of `tokenBucketLimiter`:
`bucket.tokens = Math.min(BUCKET_CAPACITY, bucket.tokens + delta * REFILL_RATE);
 bucket.lastRefill = now;` where `delta = now - bucket.lastRefill`. -/
def refill (b : Bucket) (now : ℚ) : Bucket :=
  { tokens := min BUCKET_CAPACITY (b.tokens + (now - b.lastRefill) * REFILL_RATE)
    lastRefill := now }

/-- One call of `tokenBucketLimiter` for a single identity: the stored bucket
(`none` when the identity is fresh; a fresh bucket starts full with
`lastRefill = now`), the current time, and the resulting stored bucket plus
observable outcome.  Denial sends `Retry-After: 1`. -/
def tokenBucketLimiter (bucket : Option Bucket) (now : ℚ) : Bucket × TBResult :=
  let b0 := bucket.getD { tokens := BUCKET_CAPACITY, lastRefill := now }
  let b := refill b0 now
  if b.tokens < REQUEST_COST then
    (b, { allowed := false, retryAfterSeconds := some 1 })
  else
    ({ b with tokens := b.tokens - REQUEST_COST },
     { allowed := true, retryAfterSeconds := none })

/-- Runs a per-identity step function over a list of request times, collecting
the observable outcomes. -/
def runSteps {σ ρ : Type} (step : σ → ℚ → σ × ρ) : σ → List ℚ → σ × List ρ
  | s, [] => (s, [])
  | s, t :: ts =>
    let p := step s t
    let q := runSteps step p.1 ts
    (q.1, p.2 :: q.2)

/-- A sequence of token-bucket admission checks for one identity. -/
def runTB (s : Option Bucket) (ts : List ℚ) : Option Bucket × List TBResult :=
  runSteps (fun s t => let p := tokenBucketLimiter s t; (some p.1, p.2)) s ts

/-- C1: with capacity 10, refill 1/s, cost 1: every check first refills by
`elapsed × refillRate` capped at capacity and admits iff the refilled tokens
reach the cost; from a fresh identity, 10 immediate checks are allowed, the
11th is denied with `Retry-After: 1 = ⌈1/refillRate⌉`, and after one more
second exactly one further check is allowed. -/
theorem tokenBucket_c1_burst_refill (b : Bucket) (now : ℚ) :
    (((tokenBucketLimiter (some b) now).2.allowed = true ↔
        REQUEST_COST ≤
          min BUCKET_CAPACITY (b.tokens + (now - b.lastRefill) * REFILL_RATE)) ∧
      (tokenBucketLimiter (some b) now).1.tokens =
        (if REQUEST_COST ≤
            min BUCKET_CAPACITY (b.tokens + (now - b.lastRefill) * REFILL_RATE)
         then min BUCKET_CAPACITY (b.tokens + (now - b.lastRefill) * REFILL_RATE)
                - REQUEST_COST
         else min BUCKET_CAPACITY (b.tokens + (now - b.lastRefill) * REFILL_RATE))) ∧
    (runTB none (List.replicate 11 0 ++ [1, 1])).2 =
      List.replicate 10 { allowed := true, retryAfterSeconds := none } ++
        [{ allowed := false, retryAfterSeconds := some 1 },
         { allowed := true, retryAfterSeconds := none },
         { allowed := false, retryAfterSeconds := some 1 }] ∧
    (⌈1 / REFILL_RATE⌉ : ℤ) = 1 := by
  refine ⟨⟨?_, ?_⟩, ?_, ?_⟩
  · simp only [tokenBucketLimiter, refill, Option.getD]
    split
    · rename_i h
      simp only [Bool.false_eq_true, false_iff, not_le]
      exact h
    · rename_i h
      simp only [true_iff]
      exact le_of_not_lt h
  · simp only [tokenBucketLimiter, refill, Option.getD]
    split
    · rename_i h
      rw [if_neg (not_le.mpr h)]
    · rename_i h
      rw [if_pos (le_of_not_lt h)]
  · norm_num [runTB, runSteps, tokenBucketLimiter, refill, BUCKET_CAPACITY,
      REFILL_RATE, REQUEST_COST, List.replicate, min_def]
  · norm_num [REFILL_RATE]

/-! ## Token bucket invariants (claims C9, C10, C8) -/

/-- The data-model invariant for `Bucket`: tokens stay within `[0, capacity]`. -/
def BucketInv (b : Bucket) : Prop :=
  0 ≤ b.tokens ∧ b.tokens ≤ BUCKET_CAPACITY

/-- One admission check preserves the bucket invariant and stamps
`lastRefill := now`, provided the clock did not go backwards. -/
lemma tokenBucket_step_inv (b : Bucket) (now : ℚ)
    (hle : b.lastRefill ≤ now) (h0 : 0 ≤ b.tokens) :
    BucketInv (tokenBucketLimiter (some b) now).1 ∧
      (tokenBucketLimiter (some b) now).1.lastRefill = now := by
  have hd : 0 ≤ (now - b.lastRefill) * REFILL_RATE := by
    have h1 : 0 ≤ now - b.lastRefill := by linarith
    have h2 : (0 : ℚ) ≤ REFILL_RATE := by norm_num [REFILL_RATE]
    exact mul_nonneg h1 h2
  have hcap : (0 : ℚ) ≤ BUCKET_CAPACITY := by norm_num [BUCKET_CAPACITY]
  simp only [tokenBucketLimiter, refill, Option.getD]
  split
  · exact ⟨⟨le_min hcap (by linarith), min_le_left _ _⟩, rfl⟩
  · rename_i h
    have h' := le_of_not_lt h
    have hmin := min_le_left BUCKET_CAPACITY
      (b.tokens + (now - b.lastRefill) * REFILL_RATE)
    have hc : (0 : ℚ) ≤ REQUEST_COST := by norm_num [REQUEST_COST]
    refine ⟨⟨?_, ?_⟩, rfl⟩
    · show (0 : ℚ) ≤
        min BUCKET_CAPACITY (b.tokens + (now - b.lastRefill) * REFILL_RATE)
          - REQUEST_COST
      linarith
    · show min BUCKET_CAPACITY (b.tokens + (now - b.lastRefill) * REFILL_RATE)
          - REQUEST_COST ≤ BUCKET_CAPACITY
      linarith

/-- Unfolding one step of `runTB`. -/
lemma runTB_cons (s : Option Bucket) (t : ℚ) (ts : List ℚ) :
    runTB s (t :: ts) =
      ((runTB (some (tokenBucketLimiter s t).1) ts).1,
        (tokenBucketLimiter s t).2 :: (runTB (some (tokenBucketLimiter s t).1) ts).2) :=
  rfl

/-- Over any chronologically ordered sequence of checks, the bucket invariant
is preserved. -/
lemma runTB_inv (ts : List ℚ) :
    ∀ b : Bucket, BucketInv b → List.Chain (· ≤ ·) b.lastRefill ts →
      ∃ b' rs, runTB (some b) ts = (some b', rs) ∧ BucketInv b' := by
  induction ts with
  | nil => exact fun b hb _ => ⟨b, [], rfl, hb⟩
  | cons t ts ih =>
    intro b hb hchain
    rw [List.chain_cons] at hchain
    obtain ⟨hstep, hlast⟩ :=
      tokenBucket_step_inv b t hchain.1 hb.1
    obtain ⟨b', rs, hrun, hb'⟩ :=
      ih (tokenBucketLimiter (some b) t).1 hstep (by rw [hlast]; exact hchain.2)
    exact ⟨b', (tokenBucketLimiter (some b) t).2 :: rs, by rw [runTB_cons, hrun], hb'⟩

/-- C9: tokens never exceed capacity and never go negative — one check
preserves the invariant, any chronological trace of checks preserves it,
refill is purely a function of elapsed time (enough idle time saturates the
bucket exactly to capacity on the next check), and a fresh bucket starts
full (its first check leaves `capacity - cost`). -/
theorem tokenBucket_c9_invariant (b : Bucket) (ts : List ℚ) (now : ℚ)
    (hb : BucketInv b) (hchain : List.Chain (· ≤ ·) b.lastRefill ts)
    (hnow : b.lastRefill ≤ now) :
    BucketInv (tokenBucketLimiter (some b) now).1 ∧
      (∃ b' rs, runTB (some b) ts = (some b', rs) ∧ BucketInv b') ∧
      (BUCKET_CAPACITY ≤ b.tokens + (now - b.lastRefill) * REFILL_RATE →
        (refill b now).tokens = BUCKET_CAPACITY) ∧
      (tokenBucketLimiter none now).1.tokens = BUCKET_CAPACITY - REQUEST_COST := by
  refine ⟨(tokenBucket_step_inv b now hnow hb.1).1, runTB_inv ts b hb hchain, ?_, ?_⟩
  · intro hsat
    simp only [refill]
    exact min_eq_left hsat
  · simp [tokenBucketLimiter, refill, Option.getD, BUCKET_CAPACITY, REQUEST_COST]

/-- Closed-form instance of `tokenBucket_c9_invariant` at a concrete bucket,
trace and time. -/
theorem tokenBucket_c9_witness :
    (BucketInv ⟨5, 0⟩ ∧ List.Chain (· ≤ ·) (Bucket.lastRefill ⟨5, 0⟩) [1, 2] ∧
        Bucket.lastRefill ⟨5, 0⟩ ≤ 3) ∧
      (BucketInv (tokenBucketLimiter (some ⟨5, 0⟩) 3).1 ∧
        (∃ b' rs, runTB (some ⟨5, 0⟩) [1, 2] = (some b', rs) ∧ BucketInv b') ∧
        (BUCKET_CAPACITY ≤ (5 : ℚ) + ((3 : ℚ) - 0) * REFILL_RATE →
          (refill ⟨5, 0⟩ 3).tokens = BUCKET_CAPACITY) ∧
        (tokenBucketLimiter none 3).1.tokens = BUCKET_CAPACITY - REQUEST_COST) := by
  have h1 : BucketInv ⟨5, 0⟩ := by constructor <;> norm_num [BUCKET_CAPACITY]
  have h2 : List.Chain (· ≤ ·) (Bucket.lastRefill ⟨5, 0⟩) [1, 2] := by
    simp only [List.chain_cons, List.Chain.nil]
    norm_num
  have h3 : Bucket.lastRefill ⟨5, 0⟩ ≤ 3 := by norm_num
  exact ⟨⟨h1, h2, h3⟩, tokenBucket_c9_invariant ⟨5, 0⟩ [1, 2] 3 h1 h2 h3⟩

/-- The pure refill arithmetic on a token count: add `elapsed × rate`, cap at
capacity. -/
def refillTok (t d : ℚ) : ℚ :=
  min BUCKET_CAPACITY (t + d * REFILL_RATE)

/-- Capped addition composes: adding `d` after capping at `c` is the same as
adding `d` before capping, for nonnegative `d`. -/
lemma min_add_compose (c a d : ℚ) (hd : 0 ≤ d) :
    min c (min c a + d) = min c (a + d) := by
  rcases le_total c a with h | h
  · rw [min_eq_left h, min_eq_left (by linarith : c ≤ c + d),
      min_eq_left (by linarith : c ≤ a + d)]
  · rw [min_eq_right h]

/-- C10: the refill step composes over time — refilling by `d1` then `d2`
equals refilling once by `d1 + d2` — and consequently a denied check (which
only refills and restamps `lastRefill`) leaves later checks observing exactly
the token count they would have observed without it. -/
theorem tokenBucket_c10_refill_compose (t d1 d2 : ℚ) (b : Bucket) (now now' : ℚ)
    (h0 : 0 ≤ t) (h1 : t ≤ BUCKET_CAPACITY) (hd1 : 0 ≤ d1) (hd2 : 0 ≤ d2)
    (hmono : now ≤ now') :
    refillTok (refillTok t d1) d2 = refillTok t (d1 + d2) ∧
      ((tokenBucketLimiter (some b) now).2.allowed = false →
        (refill (tokenBucketLimiter (some b) now).1 now').tokens =
          (refill b now').tokens) := by
  constructor
  · simp only [refillTok, REFILL_RATE, mul_one]
    rw [min_add_compose _ _ _ hd2, add_assoc]
  · intro hdenied
    have hcond : min BUCKET_CAPACITY
        (b.tokens + (now - b.lastRefill) * REFILL_RATE) < REQUEST_COST := by
      by_contra hge
      simp only [tokenBucketLimiter, refill, Option.getD, if_neg hge] at hdenied
      exact Bool.noConfusion hdenied
    have hstate : (tokenBucketLimiter (some b) now).1 = refill b now := by
      simp only [tokenBucketLimiter, refill, Option.getD, if_pos hcond]
    rw [hstate]
    simp only [refill, REFILL_RATE, mul_one]
    have := min_add_compose BUCKET_CAPACITY
      (b.tokens + (now - b.lastRefill)) (now' - now) (by linarith)
    calc min BUCKET_CAPACITY
          (min BUCKET_CAPACITY (b.tokens + (now - b.lastRefill)) + (now' - now))
        = min BUCKET_CAPACITY (b.tokens + (now - b.lastRefill) + (now' - now)) := this
      _ = min BUCKET_CAPACITY (b.tokens + (now' - b.lastRefill)) := by ring_nf

/-- Closed-form instance of `tokenBucket_c10_refill_compose`: the empty bucket
denied at `t = 1/2` yields the same observation at `t = 3/4` as an undisturbed
bucket. -/
theorem tokenBucket_c10_witness :
    ((0 : ℚ) ≤ 5 ∧ (5 : ℚ) ≤ BUCKET_CAPACITY ∧ (0 : ℚ) ≤ 2 ∧ (0 : ℚ) ≤ 3 ∧
        (1 / 2 : ℚ) ≤ 3 / 4) ∧
      (refillTok (refillTok 5 2) 3 = refillTok 5 (2 + 3) ∧
        ((tokenBucketLimiter (some ⟨0, 0⟩) (1 / 2)).2.allowed = false →
          (refill (tokenBucketLimiter (some ⟨0, 0⟩) (1 / 2)).1 (3 / 4)).tokens =
            (refill ⟨0, 0⟩ (3 / 4)).tokens)) := by
  refine ⟨⟨by norm_num, by norm_num [BUCKET_CAPACITY], by norm_num, by norm_num,
    by norm_num⟩, ?_⟩
  exact tokenBucket_c10_refill_compose 5 2 3 ⟨0, 0⟩ (1 / 2) (3 / 4)
    (by norm_num) (by norm_num [BUCKET_CAPACITY]) (by norm_num) (by norm_num)
    (by norm_num)

/-! ## Sliding-log limiter — `mockSlidingWindowLimiter` in
src/middleware/mockSlidingWindow.ts -/

/-- Observable outcome of a window-limiter admission check: whether `next()`
was called, the `Retry-After` header on a 429 denial, and the
`X-RateLimit-Limit` / `X-RateLimit-Remaining` headers on success. -/
structure WResult where
  allowed : Bool
  retryAfterSeconds : Option ℚ
  limit : Option ℕ
  remaining : Option ℤ
deriving DecidableEq

/-- Source constant `const WINDOW_SIZE_IN_SECONDS = 60` (both limiters in
mockSlidingWindow.ts use this value). -/
def WINDOW_SIZE_IN_SECONDS : ℚ := 60

/-- Source constant `const MAX_REQUESTS = 100`. -/
def MAX_REQUESTS : ℕ := 100

/-- One call of `mockSlidingWindowLimiter` for a single identity,
parameterised by the two configuration constants: filter out timestamps
older than the window, deny (leaving the stored log untouched) when the
remaining count reaches `maxRequests`, otherwise store the pruned log with
`now` appended. -/
def slidingLogCheck (windowSeconds : ℚ) (maxRequests : ℕ)
    (log : List ℚ) (now : ℚ) : List ℚ × WResult :=
  let requests := log.filter (fun timestamp => now - timestamp < windowSeconds)
  if maxRequests ≤ requests.length then
    (log, { allowed := false, retryAfterSeconds := some windowSeconds,
            limit := none, remaining := none })
  else
    (requests ++ [now],
     { allowed := true, retryAfterSeconds := none,
       limit := some maxRequests,
       remaining := some (max 0 ((maxRequests : ℤ) - (requests.length + 1))) })

/-- The sliding-log limiter at the source's configuration constants. -/
def mockSlidingWindowLimiter : List ℚ → ℚ → List ℚ × WResult :=
  slidingLogCheck WINDOW_SIZE_IN_SECONDS MAX_REQUESTS

/-- A sequence of sliding-log admission checks for one identity. -/
def runLog (windowSeconds : ℚ) (maxRequests : ℕ) :
    List ℚ → List ℚ → List ℚ × List WResult :=
  runSteps (slidingLogCheck windowSeconds maxRequests)

/-- Keeping a timestamp iff `now - ts < w` is the same as dropping it iff
`ts ≤ now - w`, the spec's phrasing. -/
lemma filter_window_eq (w now : ℚ) (log : List ℚ) :
    log.filter (fun ts => now - ts < w) = log.filter (fun ts => !(ts ≤ now - w)) := by
  apply List.filter_congr
  intro x _
  by_cases h : x ≤ now - w
  · have h2 : ¬(now - x < w) := by linarith
    simp [h, h2]
  · have h2 : now - x < w := by
      push_neg at h
      linarith
    simp [h, h2]

/-- C3: a sliding-log check counts only logged timestamps within the last
`windowSeconds` (dropping those with `ts ≤ now - windowSeconds`); when the
count reaches `maxRequests` the check denies with
`retryAfterSeconds = windowSeconds` and leaves the stored log unchanged;
otherwise it stores the pruned log with `now` appended and allows with
`remaining = max 0 (maxRequests - newCount)`; for `maxRequests = 3`,
`windowSeconds = 10`, requests at t = 0, 0, 0, 5, 11 give
allowed, allowed, allowed, denied, allowed. -/
theorem slidingLog_c3 (w now : ℚ) (m : ℕ) (log : List ℚ) :
    (log.filter (fun ts => now - ts < w) =
        log.filter (fun ts => !(ts ≤ now - w))) ∧
    ((slidingLogCheck w m log now).2.allowed = false ↔
        m ≤ (log.filter (fun ts => now - ts < w)).length) ∧
    (m ≤ (log.filter (fun ts => now - ts < w)).length →
      slidingLogCheck w m log now =
        (log, { allowed := false, retryAfterSeconds := some w,
                limit := none, remaining := none })) ∧
    ((log.filter (fun ts => now - ts < w)).length < m →
      slidingLogCheck w m log now =
        (log.filter (fun ts => now - ts < w) ++ [now],
         { allowed := true, retryAfterSeconds := none, limit := some m,
           remaining := some (max 0 ((m : ℤ) -
             ((log.filter (fun ts => now - ts < w)).length + 1))) })) ∧
    (runLog 10 3 [] [0, 0, 0, 5, 11]).2.map WResult.allowed =
      [true, true, true, false, true] := by
  refine ⟨filter_window_eq w now log, ?_, ?_, ?_, ?_⟩
  · simp only [slidingLogCheck]
    split
    · rename_i h
      simpa using h
    · rename_i h
      simp only [Bool.true_eq_false, false_iff, not_le]
      exact lt_of_not_le h
  · intro h
    simp only [slidingLogCheck, if_pos h]
  · intro h
    simp only [slidingLogCheck, if_neg (not_le.mpr h)]
  · norm_num [runLog, runSteps, slidingLogCheck, List.filter]

/-- Closed-form instance of `slidingLog_c3` at a concrete log and window. -/
theorem slidingLog_c3_witness :
    (3 ≤ (List.filter (fun ts => (5 : ℚ) - ts < 10) [0, 0, 0]).length →
      slidingLogCheck 10 3 [0, 0, 0] 5 =
        ([0, 0, 0], { allowed := false, retryAfterSeconds := some 10,
                      limit := none, remaining := none })) ∧
    3 ≤ (List.filter (fun ts => (5 : ℚ) - ts < 10) [0, 0, 0]).length := by
  refine ⟨(slidingLog_c3 10 5 3 [0, 0, 0]).2.2.1, ?_⟩
  norm_num [List.filter]

/-! ## Claim C8: a denial's effect on limiter state -/

/-- Counterexample to C8 as stated: a denied token-bucket check does mutate
the stored bucket — from `{tokens := 0, lastRefill := 0}` a check at
`now = 1/2` is denied, yet the stored record becomes
`{tokens := 1/2, lastRefill := 1/2}`. -/
theorem tokenBucket_c8_counterexample :
    (tokenBucketLimiter (some ⟨0, 0⟩) (1 / 2)).2.allowed = false ∧
      (tokenBucketLimiter (some ⟨0, 0⟩) (1 / 2)).1 ≠ ⟨0, 0⟩ := by
  constructor
  · norm_num [tokenBucketLimiter, refill, Option.getD, BUCKET_CAPACITY,
      REFILL_RATE, REQUEST_COST, min_def]
  · intro h
    have := congrArg Bucket.lastRefill h
    norm_num [tokenBucketLimiter, refill, Option.getD, BUCKET_CAPACITY,
      REFILL_RATE, REQUEST_COST, min_def] at this

/-- C8 amended: a denied sliding-log check leaves the stored log exactly
unchanged; a denied token-bucket check stores only the refill
(`tokens := min(capacity, tokens + elapsed × rate)`, `lastRefill := now`),
never consumes budget (tokens do not decrease), and leaves every later
check observing exactly the token count it would have observed had the
denied check not happened; only an allowed request consumes budget or
appends to the log. -/
theorem c8_amended_denial_consumes_nothing (w now : ℚ) (m : ℕ) (log : List ℚ)
    (b : Bucket) (now' : ℚ) (h0 : 0 ≤ b.tokens) (h1 : b.tokens ≤ BUCKET_CAPACITY)
    (hle : b.lastRefill ≤ now) (hmono : now ≤ now') :
    ((slidingLogCheck w m log now).2.allowed = false →
      (slidingLogCheck w m log now).1 = log) ∧
    ((tokenBucketLimiter (some b) now).2.allowed = false →
      (tokenBucketLimiter (some b) now).1 = refill b now ∧
      b.tokens ≤ (tokenBucketLimiter (some b) now).1.tokens ∧
      (refill (tokenBucketLimiter (some b) now).1 now').tokens =
        (refill b now').tokens) := by
  constructor
  · intro hdenied
    simp only [slidingLogCheck] at hdenied ⊢
    split at hdenied
    · rename_i h
      simp only [if_pos h]
    · simp at hdenied
  · intro hdenied
    have hcond : min BUCKET_CAPACITY
        (b.tokens + (now - b.lastRefill) * REFILL_RATE) < REQUEST_COST := by
      by_contra hge
      simp only [tokenBucketLimiter, refill, Option.getD, if_neg hge] at hdenied
      exact Bool.noConfusion hdenied
    have hstate : (tokenBucketLimiter (some b) now).1 = refill b now := by
      simp only [tokenBucketLimiter, refill, Option.getD, if_pos hcond]
    refine ⟨hstate, ?_, ?_⟩
    · rw [hstate]
      show b.tokens ≤ min BUCKET_CAPACITY
        (b.tokens + (now - b.lastRefill) * REFILL_RATE)
      have hd : 0 ≤ (now - b.lastRefill) * REFILL_RATE := by
        have h2 : (0 : ℚ) ≤ REFILL_RATE := by norm_num [REFILL_RATE]
        exact mul_nonneg (by linarith) h2
      exact le_min h1 (by linarith)
    · rw [hstate]
      simp only [refill, REFILL_RATE, mul_one]
      have := min_add_compose BUCKET_CAPACITY
        (b.tokens + (now - b.lastRefill)) (now' - now) (by linarith)
      calc min BUCKET_CAPACITY
            (min BUCKET_CAPACITY (b.tokens + (now - b.lastRefill)) + (now' - now))
          = min BUCKET_CAPACITY
              (b.tokens + (now - b.lastRefill) + (now' - now)) := this
        _ = min BUCKET_CAPACITY (b.tokens + (now' - b.lastRefill)) := by ring_nf

/-- Closed-form instance of `c8_amended_denial_consumes_nothing` at a full
log and an empty bucket. -/
theorem c8_amended_witness :
    (0 ≤ Bucket.tokens ⟨0, 9 / 2⟩ ∧ Bucket.tokens ⟨0, 9 / 2⟩ ≤ BUCKET_CAPACITY ∧
        Bucket.lastRefill ⟨0, 9 / 2⟩ ≤ 5 ∧ (5 : ℚ) ≤ 6) ∧
      (((slidingLogCheck 10 3 [0, 0, 0] 5).2.allowed = false →
          (slidingLogCheck 10 3 [0, 0, 0] 5).1 = [0, 0, 0]) ∧
        ((tokenBucketLimiter (some ⟨0, 9 / 2⟩) 5).2.allowed = false →
          (tokenBucketLimiter (some ⟨0, 9 / 2⟩) 5).1 = refill ⟨0, 9 / 2⟩ 5 ∧
          Bucket.tokens ⟨0, 9 / 2⟩ ≤ (tokenBucketLimiter (some ⟨0, 9 / 2⟩) 5).1.tokens ∧
          (refill (tokenBucketLimiter (some ⟨0, 9 / 2⟩) 5).1 6).tokens =
            (refill ⟨0, 9 / 2⟩ 6).tokens)) := by
  have h0 : 0 ≤ Bucket.tokens ⟨0, 9 / 2⟩ := le_refl 0
  have h1 : Bucket.tokens ⟨0, 9 / 2⟩ ≤ BUCKET_CAPACITY := by
    norm_num [BUCKET_CAPACITY]
  have hle : Bucket.lastRefill ⟨0, 9 / 2⟩ ≤ (5 : ℚ) := by norm_num
  have hmono : (5 : ℚ) ≤ 6 := by norm_num
  exact ⟨⟨h0, h1, hle, hmono⟩,
    c8_amended_denial_consumes_nothing 10 5 3 [0, 0, 0] ⟨0, 9 / 2⟩ 6 h0 h1 hle hmono⟩

/-! ## Fixed-window counter limiter — `slidingWindowLimiter` in
src/middleware/mockSlidingWindow.ts (Redis-backed) -/

/-- The spec's `WindowCounter`: one shared-store counter with an optional
absolute expiry time (Redis `INCR` creates a key without TTL; `EXPIRE` sets
one). -/
structure WindowCounter where
  count : ℕ
  expiresAt : Option ℚ
deriving DecidableEq

/-- Modelled from the spec: the shared counter store's expiry rule (the Redis
client is an external collaborator, not part of src/) — per the spec's data
model the counter "self-expires", so a counter whose expiry time has passed
is absent. -/
def liveCounter (store : Option WindowCounter) (now : ℚ) : Option WindowCounter :=
  match store with
  | none => none
  | some c =>
    match c.expiresAt with
    | none => some c
    | some e => if e ≤ now then none else some c

/-- One call of `slidingWindowLimiter` for a single identity against a
reachable store, parameterised by the configuration constants: increment the
live counter (`INCR` creates it at 1); if the post-increment value is 1, set
its expiry to `windowSeconds` from now (`EXPIRE`); deny with
`Retry-After: windowSeconds` when the count exceeds `maxRequests`, else allow
with `limit` and `remaining = max(0, maxRequests - count)`. -/
def fixedWindowCheck (windowSeconds : ℚ) (maxRequests : ℕ)
    (store : Option WindowCounter) (now : ℚ) : Option WindowCounter × WResult :=
  let incremented :=
    match liveCounter store now with
    | some c => { c with count := c.count + 1 }
    | none => { count := 1, expiresAt := none }
  let current :=
    if incremented.count = 1 then
      { incremented with expiresAt := some (now + windowSeconds) }
    else incremented
  if maxRequests < current.count then
    (some current,
     { allowed := false, retryAfterSeconds := some windowSeconds,
       limit := none, remaining := none })
  else
    (some current,
     { allowed := true, retryAfterSeconds := none, limit := some maxRequests,
       remaining := some (max 0 ((maxRequests : ℤ) - current.count)) })

/-- The fixed-window limiter at the source's configuration constants. -/
def slidingWindowLimiter : Option WindowCounter → ℚ → Option WindowCounter × WResult :=
  fixedWindowCheck WINDOW_SIZE_IN_SECONDS MAX_REQUESTS

/-- A sequence of fixed-window admission checks for one identity. -/
def runFW : Option WindowCounter → List ℚ → Option WindowCounter × List WResult :=
  runSteps slidingWindowLimiter

/-- Unfolding one step of a run. -/
lemma runSteps_cons {σ ρ : Type} (step : σ → ℚ → σ × ρ) (s : σ) (t : ℚ)
    (ts : List ℚ) :
    runSteps step s (t :: ts) =
      ((runSteps step (step s t).1 ts).1,
        (step s t).2 :: (runSteps step (step s t).1 ts).2) :=
  rfl

/-- Splitting a run of admission checks at an append. -/
lemma runSteps_append {σ ρ : Type} (step : σ → ℚ → σ × ρ) (ts us : List ℚ) :
    ∀ s : σ, runSteps step s (ts ++ us) =
      ((runSteps step (runSteps step s ts).1 us).1,
        (runSteps step s ts).2 ++ (runSteps step (runSteps step s ts).1 us).2) := by
  induction ts with
  | nil => intro s; simp [runSteps]
  | cons t ts ih =>
    intro s
    rw [List.cons_append, runSteps_cons, ih, runSteps_cons]
    simp

/-- The allow-outcome of the fixed-window limiter at post-increment count `n`. -/
def fwAllow (n : ℕ) : WResult :=
  { allowed := true, retryAfterSeconds := none, limit := some MAX_REQUESTS,
    remaining := some (max 0 ((MAX_REQUESTS : ℤ) - n)) }

/-- The deny-outcome of the fixed-window limiter. -/
def fwDeny : WResult :=
  { allowed := false, retryAfterSeconds := some WINDOW_SIZE_IN_SECONDS,
    limit := none, remaining := none }

/-- Unfolding one step of `runFW`. -/
lemma runFW_cons (s : Option WindowCounter) (t : ℚ) (ts : List ℚ) :
    runFW s (t :: ts) =
      ((runFW (slidingWindowLimiter s t).1 ts).1,
        (slidingWindowLimiter s t).2 :: (runFW (slidingWindowLimiter s t).1 ts).2) :=
  rfl

/-- One fixed-window check at time 0 against a live, non-fresh counter with a
positive expiry: the count is incremented, the expiry kept, and the request
allowed iff the incremented count stays within `MAX_REQUESTS`. -/
lemma fw_step_at_zero (c : ℕ) (e : ℚ) (he : 0 < e) :
    slidingWindowLimiter (some ⟨c + 1, some e⟩) 0 =
      (some ⟨c + 1 + 1, some e⟩,
        if c + 1 + 1 ≤ MAX_REQUESTS then fwAllow (c + 1 + 1) else fwDeny) := by
  have hlive : liveCounter (some ⟨c + 1, some e⟩) 0 = some ⟨c + 1, some e⟩ := by
    have h : ¬ e ≤ 0 := not_le.mpr he
    simp [liveCounter, h]
  simp only [slidingWindowLimiter, fixedWindowCheck, hlive]
  rw [if_neg (by omega : ¬ (c + 1 + 1 = 1))]
  rcases le_or_lt (c + 1 + 1) MAX_REQUESTS with h | h
  · rw [if_neg (not_lt.mpr h), if_pos h]
    rfl
  · rw [if_pos h, if_neg (not_le.mpr h)]
    rfl

/-- Running `k` checks at time 0 from a live, non-fresh counter with a
positive expiry: each check increments the count, allowed exactly while the
post-increment count stays within `MAX_REQUESTS`. -/
lemma runFW_at_zero (e : ℚ) (he : 0 < e) (k : ℕ) :
    ∀ c : ℕ, runFW (some ⟨c + 1, some e⟩) (List.replicate k 0) =
      (some ⟨c + 1 + k, some e⟩,
        (List.range k).map (fun i =>
          if c + 2 + i ≤ MAX_REQUESTS then fwAllow (c + 2 + i) else fwDeny)) := by
  induction k with
  | zero => intro c; simp [runFW, runSteps]
  | succ k ih =>
    intro c
    rw [List.replicate_succ, runFW_cons, fw_step_at_zero c e he]
    simp only []
    rw [ih (c + 1)]
    refine Prod.ext ?_ ?_
    · simp only []
      have : c + 1 + 1 + k = c + 1 + (k + 1) := by omega
      rw [this]
    · simp only [List.range_succ_eq_map, List.map_cons, List.map_map]
      have h0 : c + 2 + 0 = c + 1 + 1 := by omega
      refine congrArg₂ _ ?_ ?_
      · simp only [h0]
      · apply List.map_congr_left
        intro i _
        simp only [Function.comp_apply, Nat.succ_eq_add_one]
        have harith : c + 1 + 2 + i = c + 2 + (i + 1) := by omega
        rw [harith]

/-- Splitting `runFW` at an append. -/
lemma runFW_append (ts us : List ℚ) (s : Option WindowCounter) :
    runFW s (ts ++ us) =
      ((runFW (runFW s ts).1 us).1,
        (runFW s ts).2 ++ (runFW (runFW s ts).1 us).2) :=
  runSteps_append slidingWindowLimiter ts us s

/-- A single-check run of `runFW`. -/
lemma runFW_single (s : Option WindowCounter) (t : ℚ) :
    runFW s [t] = ((slidingWindowLimiter s t).1, [(slidingWindowLimiter s t).2]) :=
  rfl

/-- A check against a fresh (or expired) counter at the source constants:
the counter is created at 1 with expiry `now + 60` and the request is
allowed at post-increment count 1. -/
lemma fw_step_fresh (store : Option WindowCounter) (now : ℚ)
    (h : liveCounter store now = none) :
    slidingWindowLimiter store now =
      (some ⟨1, some (now + WINDOW_SIZE_IN_SECONDS)⟩, fwAllow 1) := by
  simp only [slidingWindowLimiter, fixedWindowCheck, h]
  norm_num [MAX_REQUESTS, fwAllow]

/-- C2: a fixed-window check increments the live counter (creating it at 1
when absent or expired); a post-increment value of 1 gets expiry
`windowSeconds` from now; the check denies with
`retryAfterSeconds = windowSeconds` iff the incremented count exceeds
`maxRequests`, else allows with `limit` and
`remaining = max(0, maxRequests - count)`; at the source constants
(`maxRequests = 100`, `windowSeconds = 60`), 101 requests at t = 0 followed
by one at t = 61 give: requests 1–100 allowed, request 101 denied with
`Retry-After: 60`, and the post-expiry request allowed with `remaining`
reset to 99. -/
theorem fixedWindow_c2 (w : ℚ) (m : ℕ) (store : Option WindowCounter) (now : ℚ) :
    ((fixedWindowCheck w m store now).1.map WindowCounter.count =
        some ((liveCounter store now).elim 1 (fun c => c.count + 1))) ∧
    (liveCounter store now = none →
      (fixedWindowCheck w m store now).1 = some ⟨1, some (now + w)⟩) ∧
    (∀ c : WindowCounter, liveCounter store now = some c →
      (m < c.count + 1 →
        (fixedWindowCheck w m store now).2 =
          { allowed := false, retryAfterSeconds := some w, limit := none,
            remaining := none }) ∧
      (c.count + 1 ≤ m →
        (fixedWindowCheck w m store now).2 =
          { allowed := true, retryAfterSeconds := none, limit := some m,
            remaining := some (max 0 ((m : ℤ) - ((c.count + 1 : ℕ) : ℤ))) })) ∧
    ((runFW none (List.replicate 101 0 ++ [61])).2 =
        fwAllow 1 ::
          ((List.range 99).map (fun i => fwAllow (2 + i)) ++ [fwDeny, fwAllow 1])) ∧
    ((runFW none (List.replicate 101 0 ++ [61])).2.map WResult.allowed =
        List.replicate 100 true ++ [false, true]) ∧
    fwDeny = { allowed := false, retryAfterSeconds := some 60, limit := none,
               remaining := none } ∧
    fwAllow 1 = { allowed := true, retryAfterSeconds := none, limit := some 100,
                  remaining := some 99 } := by
  have hdeny_eq : fwDeny =
      { allowed := false, retryAfterSeconds := some 60, limit := none,
        remaining := none } := by
    norm_num [fwDeny, WINDOW_SIZE_IN_SECONDS]
  have hallow1_eq : fwAllow 1 =
      { allowed := true, retryAfterSeconds := none, limit := some 100,
        remaining := some 99 } := by
    norm_num [fwAllow, MAX_REQUESTS]
  have hscenario : (runFW none (List.replicate 101 0 ++ [61])).2 =
      fwAllow 1 ::
        ((List.range 99).map (fun i => fwAllow (2 + i)) ++ [fwDeny, fwAllow 1]) := by
    have hsplit : (List.replicate 101 (0 : ℚ)) ++ [61] =
        0 :: (List.replicate 100 0 ++ [61]) := by
      have h101 : (101 : ℕ) = 100 + 1 := by norm_num
      rw [h101, List.replicate_succ, List.cons_append]
    have hfresh0 : liveCounter none (0 : ℚ) = none := by simp [liveCounter]
    have hstep0 : slidingWindowLimiter none 0 =
        (some ⟨1, some 60⟩, fwAllow 1) := by
      rw [fw_step_fresh none 0 hfresh0]
      norm_num [WINDOW_SIZE_IN_SECONDS]
    have hrun100 := runFW_at_zero 60 (by norm_num) 100 0
    norm_num at hrun100
    have hfresh61 : liveCounter (some ⟨101, some 60⟩) (61 : ℚ) = none := by
      norm_num [liveCounter]
    have hstep61 : slidingWindowLimiter (some ⟨101, some 60⟩) 61 =
        (some ⟨1, some 121⟩, fwAllow 1) := by
      rw [fw_step_fresh _ _ hfresh61]
      norm_num [WINDOW_SIZE_IN_SECONDS]
    rw [hsplit, runFW_cons, hstep0]
    simp only []
    rw [runFW_append, hrun100]
    simp only []
    rw [runFW_single, hstep61]
    simp only [List.map_append]
    have hmapsplit : (List.range 100).map
        (fun i => if 2 + i ≤ MAX_REQUESTS then fwAllow (2 + i) else fwDeny) =
        (List.range 99).map (fun i => fwAllow (2 + i)) ++ [fwDeny] := by
      have h100 : (100 : ℕ) = 99 + 1 := by norm_num
      rw [h100, List.range_succ, List.map_append]
      refine congrArg₂ _ ?_ ?_
      · apply List.map_congr_left
        intro i hi
        rw [List.mem_range] at hi
        rw [if_pos (by simp only [MAX_REQUESTS]; omega)]
      · simp only [List.map_cons, List.map_nil]
        rw [if_neg (by simp only [MAX_REQUESTS]; omega)]
    rw [hmapsplit]
    simp
  refine ⟨?_, ?_, ?_, hscenario, ?_, hdeny_eq, hallow1_eq⟩
  · rcases h : liveCounter store now with _ | c
    · simp only [fixedWindowCheck, h]
      split <;> split <;> rfl
    · simp only [fixedWindowCheck, h, Option.elim]
      by_cases h1 : c.count + 1 = 1
      · simp only [h1]
        split <;> split <;> simp [h1]
      · rw [if_neg h1]
        split <;> simp
  · intro h
    simp only [fixedWindowCheck, h]
    norm_num
    split <;> rfl
  · intro c h
    constructor
    · intro hover
      simp only [fixedWindowCheck, h]
      by_cases h1 : c.count + 1 = 1
      · rw [if_pos h1]
        rw [if_pos (by simpa using hover)]
      · rw [if_neg h1]
        rw [if_pos (by simpa using hover)]
    · intro hunder
      simp only [fixedWindowCheck, h]
      by_cases h1 : c.count + 1 = 1
      · rw [if_pos h1]
        rw [if_neg (by simpa using not_lt.mpr hunder)]
      · rw [if_neg h1]
        rw [if_neg (by simpa using not_lt.mpr hunder)]
  · rw [hscenario]
    simp only [List.map_cons, List.map_append, List.map_map]
    have hall : (List.range 99).map
        (WResult.allowed ∘ fun i => fwAllow (2 + i)) = List.replicate 99 true := by
      have : (WResult.allowed ∘ fun i : ℕ => fwAllow (2 + i)) =
          fun _ : ℕ => true := by
        funext i
        rfl
      rw [this]
      simp [List.map_const', List.length_range]
    rw [hall]
    have h100 : (100 : ℕ) = 99 + 1 := by norm_num
    rw [h100, List.replicate_succ, List.cons_append]
    simp [fwAllow, fwDeny]

/-- Closed-form instance of `fixedWindow_c2`: the deny and allow branches at
a live counter of count 100. -/
theorem fixedWindow_c2_witness :
    (liveCounter (some ⟨100, some 60⟩) 0 = some ⟨100, some 60⟩ ∧
        (100 : ℕ) < 100 + 1) ∧
      (fixedWindowCheck 60 100 (some ⟨100, some 60⟩) 0).2 =
        { allowed := false, retryAfterSeconds := some 60, limit := none,
          remaining := none } := by
  have hlive : liveCounter (some ⟨100, some 60⟩) (0 : ℚ) =
      some ⟨100, some 60⟩ := by
    norm_num [liveCounter]
  refine ⟨⟨hlive, by omega⟩, ?_⟩
  exact ((fixedWindow_c2 60 100 (some ⟨100, some 60⟩) 0).2.2.1
    ⟨100, some 60⟩ hlive).1 (by decide)

/-! ## Fail-open on store unavailability (claim C7) -/

/-- Connectivity of the shared counter store as seen by one call: either the
store is reachable with its current contents, or every store operation
fails (connection refused, missing configuration, etc.). -/
inductive StoreConn
  | available (c : Option WindowCounter)
  | unavailable
deriving DecidableEq

/-- The try/catch wrapping the whole of `slidingWindowLimiter`: when any
store operation fails, the catch block logs and calls `next()` — the request
is allowed, no error escapes, and no rate-limit headers are set. -/
def slidingWindowLimiterGuarded (s : StoreConn) (now : ℚ) : StoreConn × WResult :=
  match s with
  | .unavailable =>
    (.unavailable,
     { allowed := true, retryAfterSeconds := none, limit := none,
       remaining := none })
  | .available c =>
    ((StoreConn.available (slidingWindowLimiter c now).1),
     (slidingWindowLimiter c now).2)

/-- C7: when the shared store is unreachable, the fixed-window limiter fails
open — the check is a total function that allows the request (it returns an
ordinary outcome rather than propagating a store error), and with a
reachable store it behaves exactly as the unguarded limiter. -/
theorem fixedWindow_c7_fail_open (now : ℚ) (c : Option WindowCounter) :
    (slidingWindowLimiterGuarded .unavailable now =
      (.unavailable,
       { allowed := true, retryAfterSeconds := none, limit := none,
         remaining := none })) ∧
    (slidingWindowLimiterGuarded .unavailable now).2.allowed = true ∧
    slidingWindowLimiterGuarded (.available c) now =
      ((StoreConn.available (slidingWindowLimiter c now).1),
        (slidingWindowLimiter c now).2) :=
  ⟨rfl, rfl, rfl⟩

/-! ## Retry with exponential backoff — `retryWithBackoff` in
src/services/faultTolerance.ts -/

/-- The retry loop of `retryWithBackoff`, from attempt index `attempt` with
`remaining` retries still permitted.  The operation is a function of the
attempt index (successive calls may differ); each failed attempt that is not
the last waits `baseDelay * 2 ^ attempt` before the next one.  Returns the
final outcome, the total delay waited, and the number of attempts made. -/
def retryGo {ε α : Type} (operation : ℕ → Except ε α) (baseDelay : ℚ) :
    ℕ → ℕ → Except ε α × ℚ × ℕ
  | attempt, remaining =>
    match operation attempt with
    | .ok a => (.ok a, 0, 1)
    | .error e =>
      match remaining with
      | 0 => (.error e, 0, 1)
      | r + 1 =>
        let rest := retryGo operation baseDelay (attempt + 1) r
        (rest.1, baseDelay * 2 ^ attempt + rest.2.1, rest.2.2 + 1)

/-- Mirrors `retryWithBackoff(operation, maxRetries, baseDelay)`: the loop
runs from attempt 0 with `maxRetries` retries permitted (at most
`maxRetries + 1` total attempts). -/
def retryWithBackoff {ε α : Type} (operation : ℕ → Except ε α)
    (maxRetries : ℕ) (baseDelay : ℚ) : Except ε α × ℚ × ℕ :=
  retryGo operation baseDelay 0 maxRetries

/-- The retry loop makes at most `remaining + 1` attempts. -/
lemma retryGo_attempts_le {ε α : Type} (operation : ℕ → Except ε α)
    (baseDelay : ℚ) (remaining : ℕ) :
    ∀ attempt : ℕ,
      (retryGo operation baseDelay attempt remaining).2.2 ≤ remaining + 1 := by
  induction remaining with
  | zero =>
    intro attempt
    rw [retryGo]
    rcases operation attempt with e | a <;> simp
  | succ r ih =>
    intro attempt
    rw [retryGo]
    rcases hop : operation attempt with e | a
    · simp only []
      have := ih (attempt + 1)
      omega
    · simp

/-- If every attempt up to the budget fails, the loop returns the error of
the final attempt after making all `remaining + 1` attempts. -/
lemma retryGo_all_fail {ε α : Type} (operation : ℕ → Except ε α)
    (baseDelay : ℚ) (es : ℕ → ε) (remaining : ℕ) :
    ∀ attempt : ℕ, (∀ j : ℕ, j ≤ remaining → operation (attempt + j) = .error (es (attempt + j))) →
      (retryGo operation baseDelay attempt remaining).1 =
          .error (es (attempt + remaining)) ∧
        (retryGo operation baseDelay attempt remaining).2.2 = remaining + 1 := by
  induction remaining with
  | zero =>
    intro attempt h
    have h0 := h 0 (le_refl 0)
    rw [retryGo]
    simp only [Nat.add_zero] at h0 ⊢
    rw [h0]
    exact ⟨rfl, rfl⟩
  | succ r ih =>
    intro attempt h
    have h0 := h 0 (Nat.zero_le _)
    simp only [Nat.add_zero] at h0
    have htail := ih (attempt + 1) (fun j hj => by
      have := h (j + 1) (by omega)
      rwa [show attempt + (j + 1) = attempt + 1 + j by omega] at this)
    rw [retryGo, h0]
    simp only []
    refine ⟨?_, ?_⟩
    · rw [htail.1, show attempt + 1 + r = attempt + (r + 1) by omega]
    · rw [htail.2]

/-- If attempts `attempt, …, attempt + i - 1` fail and attempt `attempt + i`
succeeds within the budget, the loop returns that success after `i + 1`
attempts. -/
lemma retryGo_first_success {ε α : Type} (operation : ℕ → Except ε α)
    (baseDelay : ℚ) (v : α) (i : ℕ) :
    ∀ attempt remaining : ℕ, i ≤ remaining →
      (∀ j : ℕ, j < i → ∃ e, operation (attempt + j) = .error e) →
      operation (attempt + i) = .ok v →
      (retryGo operation baseDelay attempt remaining).1 = .ok v ∧
        (retryGo operation baseDelay attempt remaining).2.2 = i + 1 := by
  induction i with
  | zero =>
    intro attempt remaining _ _ hok
    simp only [Nat.add_zero] at hok
    rw [retryGo, hok]
    exact ⟨rfl, rfl⟩
  | succ i ih =>
    intro attempt remaining hle hfail hok
    obtain ⟨e, h0⟩ := hfail 0 (Nat.succ_pos i)
    simp only [Nat.add_zero] at h0
    obtain ⟨r, rfl⟩ : ∃ r, remaining = r + 1 :=
      ⟨remaining - 1, by omega⟩
    have htail := ih (attempt + 1) r (by omega)
      (fun j hj => by
        obtain ⟨e', he'⟩ := hfail (j + 1) (by omega)
        exact ⟨e', by rwa [show attempt + (j + 1) = attempt + 1 + j by omega] at he'⟩)
      (by rwa [show attempt + (i + 1) = attempt + 1 + i by omega] at hok)
    rw [retryGo, h0]
    simp only []
    exact ⟨htail.1, by rw [htail.2]⟩

/-- The concrete operation of the spec's retry test: fails on attempts 0 and
1, succeeds with 42 from attempt 2 on. -/
def opFailsTwice : ℕ → Except ℕ ℕ :=
  fun n => if n < 2 then .error n else .ok 42

/-- C5: `retryWithBackoff` makes at most `maxRetries + 1` attempts, waits
`baseDelay * 2 ^ attemptIndex` between consecutive attempts, returns the
first successful attempt's result, and propagates the error of the final
attempt when every attempt fails; for an operation failing twice then
succeeding, with `maxRetries = 3`, it returns the success and the total wait
is `baseDelay + 2 * baseDelay` (in particular at least that much). -/
theorem faultTolerance_c5_retry {ε α : Type} (operation : ℕ → Except ε α)
    (maxRetries : ℕ) (baseDelay : ℚ) (es : ℕ → ε) (v : α) (i : ℕ)
    (base : ℚ) :
    ((retryWithBackoff operation maxRetries baseDelay).2.2 ≤ maxRetries + 1) ∧
    ((∀ j : ℕ, j ≤ maxRetries → operation j = .error (es j)) →
      (retryWithBackoff operation maxRetries baseDelay).1 =
          .error (es maxRetries) ∧
        (retryWithBackoff operation maxRetries baseDelay).2.2 = maxRetries + 1) ∧
    (i ≤ maxRetries → (∀ j : ℕ, j < i → ∃ e, operation j = .error e) →
      operation i = .ok v →
      (retryWithBackoff operation maxRetries baseDelay).1 = .ok v ∧
        (retryWithBackoff operation maxRetries baseDelay).2.2 = i + 1) ∧
    (retryWithBackoff opFailsTwice 3 base =
      (.ok 42, base * 2 ^ 0 + (base * 2 ^ 1 + 0), 3)) ∧
    (base * 2 ^ 0 + (base * 2 ^ 1 + 0) = base + 2 * base) ∧
    (base + 2 * base ≤ (retryWithBackoff opFailsTwice 3 base).2.1) := by
  have hscen : retryWithBackoff opFailsTwice 3 base =
      (.ok 42, base * 2 ^ 0 + (base * 2 ^ 1 + 0), 3) := by
    rw [retryWithBackoff, retryGo]
    norm_num [opFailsTwice]
    rw [retryGo]
    norm_num [opFailsTwice]
    rw [retryGo]
    norm_num [opFailsTwice]
  have hsum : base * 2 ^ 0 + (base * 2 ^ 1 + 0) = base + 2 * base := by ring
  refine ⟨retryGo_attempts_le operation baseDelay maxRetries 0, ?_, ?_,
    hscen, hsum, ?_⟩
  · intro h
    have := retryGo_all_fail operation baseDelay es maxRetries 0
      (fun j hj => by simpa using h j hj)
    simpa [retryWithBackoff] using this
  · intro hle hfail hok
    have := retryGo_first_success operation baseDelay v i 0 maxRetries hle
      (fun j hj => by simpa using hfail j hj) (by simpa using hok)
    simpa [retryWithBackoff] using this
  · rw [hscen]
    simp only []
    rw [hsum]

/-- Closed-form instance of `faultTolerance_c5_retry`: the first-success
branch at `opFailsTwice`, succeeding on attempt 2 of a 3-retry budget. -/
theorem faultTolerance_c5_witness :
    ((2 ≤ 3 ∧ (∀ j : ℕ, j < 2 → ∃ e, opFailsTwice j = .error e) ∧
        opFailsTwice 2 = .ok 42) ∧
      ((retryWithBackoff opFailsTwice 3 1000).1 = .ok 42 ∧
        (retryWithBackoff opFailsTwice 3 1000).2.2 = 2 + 1)) ∧
    ((∀ j : ℕ, j ≤ 1 → opFailsTwice j = .error j) →
      (retryWithBackoff opFailsTwice 1 1000).1 = .error 1 ∧
        (retryWithBackoff opFailsTwice 1 1000).2.2 = 1 + 1) := by
  have hle : (2 : ℕ) ≤ 3 := by omega
  have hfail : ∀ j : ℕ, j < 2 → ∃ e, opFailsTwice j = .error e := by
    intro j hj
    exact ⟨j, by simp [opFailsTwice, hj]⟩
  have hok : opFailsTwice 2 = .ok 42 := by norm_num [opFailsTwice]
  exact ⟨⟨⟨hle, hfail, hok⟩,
      (faultTolerance_c5_retry opFailsTwice 3 1000 (fun j => j) 42 2 1000).2.2.1
        hle hfail hok⟩,
    (faultTolerance_c5_retry opFailsTwice 1 1000 (fun j => j) 42 2 1000).2.1⟩

/-! ## Timeout wrapper — `withTimeout` in src/services/faultTolerance.ts -/

/-- A promise outcome annotated with the (simulated) time at which it
settles. -/
structure Timed (α : Type) where
  finishesAt : ℚ
  value : α

/-- Failure channel of `withTimeout`: either the timer's `TimeoutError` or
an error of the wrapped operation itself. -/
inductive TimedOutOr (ε : Type)
  | timedOut
  | underlying (e : ε)
deriving DecidableEq

/-- Mirrors `Promise.race`: the promise that settles first determines the
outcome (on a tie the operation's settled promise, a microtask, beats the
timer callback). -/
def race {α : Type} (a b : Timed α) : Timed α :=
  if a.finishesAt ≤ b.finishesAt then a else b

/-- Injects an operation error into the combined failure channel. -/
def injectErr {ε α : Type} : Except ε α → Except (TimedOutOr ε) α
  | .ok a => .ok a
  | .error e => .error (.underlying e)

/-- Mirrors `withTimeout(operation, timeoutMs)`: race the operation against
a timer that rejects with `TimeoutError` at `timeoutMs`. -/
def withTimeout {ε α : Type} (operation : Timed (Except ε α)) (timeoutMs : ℚ) :
    Except (TimedOutOr ε) α :=
  (race { finishesAt := operation.finishesAt, value := injectErr operation.value }
        { finishesAt := timeoutMs, value := .error .timedOut }).value

/-- C6: `withTimeout` returns the operation's own outcome exactly when the
operation settles within `timeoutMs`, and fails with `TimeoutError` exactly
when it has not settled by then. -/
theorem faultTolerance_c6_timeout {ε α : Type} (operation : Timed (Except ε α))
    (timeoutMs : ℚ) :
    (operation.finishesAt ≤ timeoutMs →
      withTimeout operation timeoutMs = injectErr operation.value) ∧
    (timeoutMs < operation.finishesAt →
      withTimeout operation timeoutMs = .error .timedOut) ∧
    (withTimeout operation timeoutMs = .error .timedOut ∨
      withTimeout operation timeoutMs = injectErr operation.value) := by
  refine ⟨?_, ?_, ?_⟩
  · intro h
    simp only [withTimeout, race, if_pos h]
  · intro h
    simp only [withTimeout, race, if_neg (not_le.mpr h)]
  · rcases le_or_lt operation.finishesAt timeoutMs with h | h
    · right
      simp only [withTimeout, race, if_pos h]
    · left
      simp only [withTimeout, race, if_neg (not_le.mpr h)]

/-- Closed-form instance of `faultTolerance_c6_timeout`: an operation
settling at 5 with a 3-unit timeout is a `TimeoutError`. -/
theorem faultTolerance_c6_witness :
    ((3 : ℚ) < Timed.finishesAt ⟨5, (Except.ok 7 : Except ℕ ℕ)⟩) ∧
      withTimeout (⟨5, Except.ok 7⟩ : Timed (Except ℕ ℕ)) 3 =
        .error .timedOut := by
  have h : (3 : ℚ) < Timed.finishesAt ⟨5, (Except.ok 7 : Except ℕ ℕ)⟩ := by
    norm_num
  exact ⟨h, (faultTolerance_c6_timeout ⟨5, Except.ok 7⟩ 3).2.1 h⟩

/-! ## Circuit breaker — configured in src/infrastructure/database.ts and
called through `executeWithCircuitBreaker` in src/services/faultTolerance.ts.
The breaker's own state machine lives in the external `opossum` library, so
it is modelled from the spec (§4.4). -/

/-- The breaker phase: `Closed` forwards and counts, `Open` short-circuits,
`HalfOpen` forwards a trial request. -/
inductive BPhase
  | Closed
  | Open
  | HalfOpen
deriving DecidableEq

/-- Modelled from the spec: `BreakerState` — the phase, the rolling failure
and total counters, and the time at which the breaker entered `Open`. -/
structure BreakerState where
  phase : BPhase
  rollingFailureCount : ℕ
  rollingTotalCount : ℕ
  openedAt : ℚ
deriving DecidableEq

/-- The breaker configuration from src/infrastructure/database.ts:
`timeout: 3000`, `errorThresholdPercentage: 50`, `resetTimeout: 10000`. -/
structure BreakerConfig where
  timeoutMs : ℚ
  errorThresholdPercentage : ℕ
  resetTimeoutMs : ℚ

/-- The configuration constants passed to `new CircuitBreaker(...)`. -/
def circuitBreakerConfig : BreakerConfig :=
  { timeoutMs := 3000, errorThresholdPercentage := 50, resetTimeoutMs := 10000 }

/-- Outcome of one invocation of the wrapped operation. -/
inductive CallOutcome (α : Type)
  | ok (a : α)
  | err
deriving DecidableEq

/-- Result of `execute()`: either short-circuited with `CircuitOpenError`,
or the (possibly timed-out) outcome of the wrapped operation. -/
inductive ExecResult (α : Type)
  | circuitOpen
  | completed (o : CallOutcome α)
deriving DecidableEq

/-- Modelled from the spec: the per-call `timeoutMs` cap — an operation that
takes longer than `timeoutMs` is recorded as a failure. -/
def effectiveOutcome {α : Type} (cfg : BreakerConfig) (opDuration : ℚ)
    (o : CallOutcome α) : CallOutcome α :=
  if cfg.timeoutMs < opDuration then .err else o

/-- Modelled from the spec: how a forwarded call's outcome updates the
breaker.  In `HalfOpen`, a trial success closes the breaker (resetting the
rolling counters) and a trial failure reopens it.  Otherwise (`Closed`, or
the forwarded probe after `Open`'s reset timeout) the rolling counters are
updated and the breaker opens when the rolling failure percentage reaches
`errorThresholdPercentage`. -/
def recordOutcome {α : Type} (cfg : BreakerConfig) (s : BreakerState) (now : ℚ)
    (o : CallOutcome α) : BreakerState :=
  match s.phase with
  | .HalfOpen =>
    match o with
    | .ok _ => { phase := .Closed, rollingFailureCount := 0,
                 rollingTotalCount := 0, openedAt := s.openedAt }
    | .err => { s with phase := .Open, openedAt := now }
  | _ =>
    let f := s.rollingFailureCount + (match o with | .err => 1 | .ok _ => 0)
    let t := s.rollingTotalCount + 1
    if cfg.errorThresholdPercentage * t ≤ 100 * f then
      { phase := .Open, rollingFailureCount := f, rollingTotalCount := t,
        openedAt := now }
    else
      { s with rollingFailureCount := f, rollingTotalCount := t }

/-- Modelled from the spec: one `execute()` call.  While `Open` and within
`resetTimeoutMs` of opening, fail immediately with `CircuitOpenError`
without invoking the wrapped operation; once `resetTimeoutMs` has elapsed,
move to `HalfOpen` and forward the call as a trial; in `Closed` or
`HalfOpen`, invoke the operation subject to `timeoutMs` and record its
outcome.  The third component reports whether the wrapped operation was
invoked (the call counter of the spec's observability requirement). -/
def execute {α : Type} (cfg : BreakerConfig) (s : BreakerState) (now : ℚ)
    (opDuration : ℚ) (op : CallOutcome α) :
    BreakerState × ExecResult α × Bool :=
  match s.phase with
  | .Open =>
    if now - s.openedAt < cfg.resetTimeoutMs then
      (s, .circuitOpen, false)
    else
      let o := effectiveOutcome cfg opDuration op
      (recordOutcome cfg { s with phase := .HalfOpen } now o, .completed o, true)
  | _ =>
    let o := effectiveOutcome cfg opDuration op
    (recordOutcome cfg s now o, .completed o, true)

/-- C4: while `Open` (within `resetTimeoutMs` of opening) every `execute()`
fails immediately with `CircuitOpenError`, the wrapped operation is not
invoked, and the breaker state is unchanged; while `Closed` or `HalfOpen`
the operation is invoked and its outcome updates the rolling counters (in
`Closed`, the total count increments, and a timed-out call counts as a
failure); once `resetTimeoutMs` has elapsed since opening, the next call is
forwarded (the `HalfOpen` trial) and a timely success transitions the
breaker to `Closed` — as does a timely trial success from `HalfOpen`
itself. -/
theorem circuitBreaker_c4 {α : Type} (cfg : BreakerConfig) (s : BreakerState)
    (now opDuration : ℚ) (op : CallOutcome α) (a : α) :
    (s.phase = .Open → now - s.openedAt < cfg.resetTimeoutMs →
      execute cfg s now opDuration op = (s, .circuitOpen, false)) ∧
    (s.phase = .Closed ∨ s.phase = .HalfOpen →
      (execute cfg s now opDuration op).2.2 = true) ∧
    (s.phase = .Closed →
      (execute cfg s now opDuration op).1.rollingTotalCount =
        s.rollingTotalCount + 1) ∧
    (s.phase = .Closed → cfg.timeoutMs < opDuration →
      (execute cfg s now opDuration op).1.rollingFailureCount =
        s.rollingFailureCount + 1) ∧
    (s.phase = .Open → cfg.resetTimeoutMs ≤ now - s.openedAt →
      (execute cfg s now opDuration op).2.2 = true ∧
      (op = .ok a → opDuration ≤ cfg.timeoutMs →
        (execute cfg s now opDuration op).1.phase = .Closed)) ∧
    (s.phase = .HalfOpen → op = .ok a → opDuration ≤ cfg.timeoutMs →
      (execute cfg s now opDuration op).1.phase = .Closed) := by
  refine ⟨?_, ?_, ?_, ?_, ?_, ?_⟩
  · intro hopen hwait
    simp only [execute, hopen, if_pos hwait]
  · rintro (hc | hh)
    · simp only [execute, hc]
    · simp only [execute, hh]
  · intro hc
    simp only [execute, hc, recordOutcome]
    split <;> rfl
  · intro hc htimeout
    simp only [execute, hc, recordOutcome, effectiveOutcome, if_pos htimeout]
    split <;> rfl
  · intro hopen hwait
    simp only [execute, hopen, if_neg (not_lt.mpr hwait)]
    refine ⟨by trivial, ?_⟩
    intro hok htimely
    simp only [recordOutcome, effectiveOutcome, if_neg (not_lt.mpr htimely), hok]
  · intro hh hok htimely
    simp only [execute, hh, recordOutcome, effectiveOutcome,
      if_neg (not_lt.mpr htimely), hok]

/-- Closed-form instance of `circuitBreaker_c4`: a freshly opened breaker at
the source configuration blocks a call 5 seconds later without invoking the
operation, and forwards (and closes on) a timely successful trial 10 seconds
later. -/
theorem circuitBreaker_c4_witness :
    (BreakerState.phase ⟨.Open, 5, 10, 0⟩ = .Open ∧
        (5000 : ℚ) - BreakerState.openedAt ⟨.Open, 5, 10, 0⟩ <
          circuitBreakerConfig.resetTimeoutMs ∧
        circuitBreakerConfig.resetTimeoutMs ≤
          (10000 : ℚ) - BreakerState.openedAt ⟨.Open, 5, 10, 0⟩) ∧
      (execute circuitBreakerConfig ⟨.Open, 5, 10, 0⟩ 5000 100
          (CallOutcome.ok 0) = (⟨.Open, 5, 10, 0⟩, .circuitOpen, false)) ∧
      ((execute circuitBreakerConfig ⟨.Open, 5, 10, 0⟩ 10000 100
          (CallOutcome.ok (0 : ℕ))).2.2 = true ∧
        (CallOutcome.ok (0 : ℕ) = CallOutcome.ok 0 →
          (100 : ℚ) ≤ circuitBreakerConfig.timeoutMs →
          (execute circuitBreakerConfig ⟨.Open, 5, 10, 0⟩ 10000 100
            (CallOutcome.ok 0)).1.phase = .Closed)) := by
  have hphase : BreakerState.phase ⟨.Open, 5, 10, 0⟩ = .Open := rfl
  have hwait : (5000 : ℚ) - BreakerState.openedAt ⟨.Open, 5, 10, 0⟩ <
      circuitBreakerConfig.resetTimeoutMs := by
    norm_num [circuitBreakerConfig]
  have helapsed : circuitBreakerConfig.resetTimeoutMs ≤
      (10000 : ℚ) - BreakerState.openedAt ⟨.Open, 5, 10, 0⟩ := by
    norm_num [circuitBreakerConfig]
  exact ⟨⟨hphase, hwait, helapsed⟩,
    (circuitBreaker_c4 circuitBreakerConfig ⟨.Open, 5, 10, 0⟩ 5000 100
      (CallOutcome.ok 0) 0).1 hphase hwait,
    (circuitBreaker_c4 circuitBreakerConfig ⟨.Open, 5, 10, 0⟩ 10000 100
      (CallOutcome.ok 0) 0).2.2.2.2.1 hphase helapsed⟩

end PerfDemo
